import Mathlib

/-!
Formal model of the chat relay and session coordination layer of the
genz-social-feed repository: the session-to-conversation index, the two
non-streaming assistant handler variants in `netlify/functions/assistant.mts`,
the streaming relay (`/api/avery`), the browser SSE consumer, and the
client-side delivery-status state machine.  Each definition is a shallow
embedding of the corresponding source function; theorems at the end settle
the specification claims against these definitions.
-/

/-- JS string truthiness: a string is truthy iff it is nonempty. -/
def jsTruthy (s : String) : Bool := s ≠ ""

/-- JS `a || b` where `a` is a possibly-absent string (absent or empty is
falsy, as in `threadId || threadMap.get(sessionId)`). -/
def jsOrStr : Option String → Option String → Option String
  | some a, b => if jsTruthy a then some a else b
  | none, b => b

/-- JS falsiness of a string-or-undefined value (`!finalThreadId`). -/
def jsFalsyOpt : Option String → Bool
  | none => true
  | some s => s == ""

/-- JS `s.trim()`: strip leading and trailing whitespace. -/
def jsTrim (s : String) : String :=
  ⟨((s.data.dropWhile Char.isWhitespace).reverse.dropWhile Char.isWhitespace).reverse⟩

/-- The session-to-conversation index: `const threadMap = new Map<string,string>()`
in `assistant.mts` (variant A) and in the patched handler of `part_001`.
Modelled as an association list from session id to upstream thread id. -/
abbrev ThreadMap := List (String × String)

/-- JS `threadMap.get(sessionId)`. -/
def threadMapGet (m : ThreadMap) (k : String) : Option String :=
  (List.find? (fun p => p.1 == k) m).map Prod.snd

/-- JS `threadMap.set(k, v)`: overwrite an existing entry or append a new one. -/
def threadMapSet : ThreadMap → String → String → ThreadMap
  | [], k, v => [(k, v)]
  | (k', v') :: rest, k, v =>
    if k' == k then (k, v) :: rest else (k', v') :: threadMapSet rest k v

/-- Result of the thread-resolution step of the non-streaming handler. -/
structure ResolveOut where
  finalThreadId : String
  map : ThreadMap
  createdThread : Bool

/-- Thread resolution in `assistant.mts` variant A (lines 28–35) and the
patched handler of `part_001` (lines 711–718):

    let finalThreadId = threadId || threadMap.get(sessionId);
    if (!finalThreadId) \x7b
      const thread = await openai.beta.threads.create();
      finalThreadId = thread.id;
      threadMap.set(sessionId, finalThreadId);
    \x7d

`newThreadId` stands for the id of the upstream thread that
`openai.beta.threads.create()` would return on this call. -/
def resolveThread (m : ThreadMap) (threadId : Option String) (sessionId : String)
    (newThreadId : String) : ResolveOut :=
  let fin := jsOrStr threadId (threadMapGet m sessionId)
  if jsFalsyOpt fin then
    { finalThreadId := newThreadId
      map := threadMapSet m sessionId newThreadId
      createdThread := true }
  else
    { finalThreadId := fin.getD ""
      map := m
      createdThread := false }

/-- One submission to the non-streaming endpoint, as far as thread resolution
is concerned: the session id, the optional explicit thread id, and the fresh
upstream thread id that would be minted if this call had to create one. -/
structure ThreadReq where
  sessionId : String
  threadId : Option String
  newThreadId : String

/-- Process a sequence of submissions against the index, collecting for each
request the conversation id it resolved to. -/
def processThreadReqs (m : ThreadMap) : List ThreadReq → ThreadMap × List (ThreadReq × String)
  | [] => (m, [])
  | r :: rest =>
    let out := resolveThread m r.threadId r.sessionId r.newThreadId
    let next := processThreadReqs out.map rest
    (next.1, (r, out.finalThreadId) :: next.2)

/-! Client-side delivery state machine (part_001, both variants). -/

/-- Client-side delivery status of a user message. -/
inductive MessageStatus
  | sending
  | sent
  | delivered
  | read
  | failed
deriving DecidableEq, Repr

/-- Rank along the progression sending → sent → delivered → read. -/
def statusRank : MessageStatus → Nat
  | .sending => 0
  | .sent => 1
  | .delivered => 2
  | .read => 3
  | .failed => 4

/-- One step of the delivery-status invariant claimed by the spec: the status
never regresses along sending < sent < delivered < read, `failed` may be
entered from any non-terminal state, and `failed` and `read` are terminal.
(Definition follows the claim wording, to judge the traces the code makes.) -/
def statusStepOk : MessageStatus → MessageStatus → Bool
  | .failed, b => b == .failed
  | .read, b => b == .read
  | _, .failed => true
  | a, b => statusRank a ≤ statusRank b

/-- Whether every adjacent pair of a status trace satisfies `statusStepOk`. -/
def traceOk : List MessageStatus → Bool
  | a :: b :: rest => statusStepOk a b && traceOk (b :: rest)
  | _ => true

/-- A scheduled `markStatus` update: absolute firing time (ms since the send)
and the status it writes.  `markStatus` (part_001 lines 92–94 and 442–448)
wraps an unconditional `setMessages(... \x7b ...m, status \x7d ...)` in a
`setTimeout`. -/
structure StatusTimer where
  time : Nat
  status : MessageStatus
deriving DecidableEq, Repr

/-- Insert a timer after all already-queued timers with earlier-or-equal
firing time: the JS event loop runs timers in ascending time order, ties in
scheduling order. -/
def insertTimer (t : StatusTimer) : List StatusTimer → List StatusTimer
  | [] => [t]
  | u :: rest => if u.time ≤ t.time then u :: insertTimer t rest else t :: u :: rest

/-- Firing order of a list of timers given in scheduling order. -/
def fireOrder (ts : List StatusTimer) : List StatusTimer :=
  ts.foldl (fun acc t => insertTimer t acc) []

/-- Timers scheduled by `handleSend` for the user message (part_001 lines
125–136 and 413–437): the optimistic receipts `markStatus(id, "sent", 200)`
and `markStatus(id, "delivered", 600)` are scheduled at send time, and the
outcome — `read` on success, `failed` on error — is marked with delay 0 when
the backend call settles, `tOutcome` ms after the send.  No timer is ever
cancelled. -/
def handleSendTimers (outcome : MessageStatus) (tOutcome : Nat) : List StatusTimer :=
  [⟨200, .sent⟩, ⟨600, .delivered⟩, ⟨tOutcome, outcome⟩]

/-- Status trace of the user message: initial `sending`, then each timer
firing overwrites the status unconditionally. -/
def statusTrace (outcome : MessageStatus) (tOutcome : Nat) : List MessageStatus :=
  .sending :: (fireOrder (handleSendTimers outcome tOutcome)).map StatusTimer.status

/-- A client-side chat message (part_001 `ChatMessage`). -/
structure ChatMessage where
  id : String
  role : String
  text : String
  timestamp : Nat
  status : Option MessageStatus
deriving DecidableEq, Repr

/-- The `setMessages(prev.map(m => m.id === id ? \x7b ...m, status \x7d : m))`
update used by `markStatus` and `retry`. -/
def setStatusById (msgs : List ChatMessage) (i : String) (st : MessageStatus) :
    List ChatMessage :=
  msgs.map (fun m => if m.id == i then { m with status := some st } else m)

/-- The `retry` handler (part_001 lines 490–494) followed by the
`handleSend` it schedules: the message whose id matches is set back to
`sending`, the composer input becomes the message text, and `handleSend`
(lines 389–439) appends a new user message in `sending` state with the
trimmed input, unless the input trims to empty or a send is in flight
(`sendingFlag`).  `newId` and `now` are the fresh id and timestamp of the
new message. -/
def retryThenSend (msgs : List ChatMessage) (msg : ChatMessage)
    (sendingFlag : Bool) (newId : String) (now : Nat) : List ChatMessage :=
  let msgs1 := setStatusById msgs msg.id .sending
  let trimmed := jsTrim msg.text
  if trimmed = "" ∨ sendingFlag then msgs1
  else msgs1 ++ [{ id := newId, role := "user", text := trimmed,
                   timestamp := now, status := some .sending }]

/-! JSON serialization of flat string-valued objects, as `JSON.stringify`
produces it for the object literals appearing in the source (response
bodies and stream-event payloads), together with the inverse parser used to
model the `JSON.parse` in the browser SSE consumer. -/

/-- Lowercase hexadecimal digit. -/
def hexDigit (n : Nat) : Char :=
  if n < 10 then Char.ofNat (48 + n) else Char.ofNat (87 + n)

/-- Escaping of one character inside a JSON string literal. -/
def jsonEscapeChar (c : Char) : List Char :=
  if c = '"' then ['\\', '"']
  else if c = '\\' then ['\\', '\\']
  else if c = '\n' then ['\\', 'n']
  else if c = '\r' then ['\\', 'r']
  else if c = '\t' then ['\\', 't']
  else if c = '\x08' then ['\\', 'b']
  else if c = '\x0c' then ['\\', 'f']
  else if c.toNat < 32 then
    ['\\', 'u', '0', '0', hexDigit (c.toNat / 16), hexDigit (c.toNat % 16)]
  else [c]

/-- A double-quoted JSON string literal. -/
def jsonQuote (s : String) : String :=
  ⟨'"' :: (s.data.flatMap jsonEscapeChar ++ ['"'])⟩

/-- Body of a JSON object with string values, fields comma-separated. -/
def jsonPairsBody : List (String × String) → String
  | [] => ""
  | [p] => jsonQuote p.1 ++ ":" ++ jsonQuote p.2
  | p :: rest => jsonQuote p.1 ++ ":" ++ jsonQuote p.2 ++ "," ++ jsonPairsBody rest

/-- JSON.stringify of a flat object with string values, e.g.
`jsonStringifyPairs [("type", "done")]` is the text `\x7b"type":"done"\x7d`. -/
def jsonStringifyPairs (ps : List (String × String)) : String :=
  "\x7b" ++ jsonPairsBody ps ++ "\x7d"

/-- Unescaping of a single-character JSON escape. -/
def jsonUnescChar (c : Char) : Option Char :=
  if c = '"' then some '"'
  else if c = '\\' then some '\\'
  else if c = '/' then some '/'
  else if c = 'n' then some '\n'
  else if c = 'r' then some '\r'
  else if c = 't' then some '\t'
  else if c = 'b' then some '\x08'
  else if c = 'f' then some '\x0c'
  else none

/-- Value of a hexadecimal digit. -/
def hexVal (c : Char) : Option Nat :=
  if 48 ≤ c.toNat ∧ c.toNat ≤ 57 then some (c.toNat - 48)
  else if 97 ≤ c.toNat ∧ c.toNat ≤ 102 then some (c.toNat - 87)
  else if 65 ≤ c.toNat ∧ c.toNat ≤ 70 then some (c.toNat - 55)
  else none

/-- Parse the remainder of a JSON string literal (the opening quote already
consumed), returning its contents and the rest of the input. -/
def jsonParseStrAux : List Char → Option (List Char × List Char)
  | [] => none
  | c :: rest =>
    if c = '"' then some ([], rest)
    else if c = '\\' then
      match rest with
      | [] => none
      | 'u' :: h1 :: h2 :: h3 :: h4 :: rest' =>
        match hexVal h1, hexVal h2, hexVal h3, hexVal h4 with
        | some a, some b, some cv, some d =>
          (jsonParseStrAux rest').map
            (fun pr => (Char.ofNat (((a * 16 + b) * 16 + cv) * 16 + d) :: pr.1, pr.2))
        | _, _, _, _ => none
      | e :: rest' =>
        match jsonUnescChar e with
        | some u => (jsonParseStrAux rest').map (fun pr => (u :: pr.1, pr.2))
        | none => none
    else (jsonParseStrAux rest).map (fun pr => (c :: pr.1, pr.2))

/-- Parse the fields of a flat string-valued JSON object after the opening
brace, with fuel bounding the number of fields. -/
def jsonParsePairsGo : Nat → List Char → Option (List (String × String))
  | 0, _ => none
  | fuel + 1, cs =>
    if cs = ['\x7d'] then some []
    else
      match cs with
      | '"' :: rest =>
        match jsonParseStrAux rest with
        | none => none
        | some (k, r1) =>
          match r1 with
          | ':' :: '"' :: r2 =>
            match jsonParseStrAux r2 with
            | none => none
            | some (v, r3) =>
              match r3 with
              | ',' :: r4 =>
                (jsonParsePairsGo fuel r4).map (fun ps => (⟨k⟩, ⟨v⟩) :: ps)
              | ['\x7d'] => some [(⟨k⟩, ⟨v⟩)]
              | _ => none
          | _ => none
      | _ => none

/-- Parse a flat string-valued JSON object, the model of the `JSON.parse`
applied by the SSE consumer to stream-event payloads. -/
def jsonParsePairs (s : String) : Option (List (String × String)) :=
  match s.data with
  | '\x7b' :: rest => jsonParsePairsGo (rest.length + 1) rest
  | _ => none

/-- A character that JSON string escaping leaves unchanged. -/
def plainChar (c : Char) : Bool :=
  c ≠ '"' && c ≠ '\\' && 32 ≤ c.toNat

/-- A string of plain characters only. -/
def plainStr (s : String) : Bool := s.data.all plainChar

/-- Plainness of every key and value of a pair list. -/
def plainPairs (ps : List (String × String)) : Prop :=
  ∀ p ∈ ps, plainStr p.1 = true ∧ plainStr p.2 = true

/-! Non-streaming turn handlers: the two variants of
`netlify/functions/assistant.mts`. -/

/-- Status of an upstream generation run. -/
inductive RunStatus
  | queued
  | in_progress
  | completed
  | failed
  | cancelled
  | expired
deriving DecidableEq, Repr

/-- The `status.status` string of a run. -/
def runStatusText : RunStatus → String
  | .queued => "queued"
  | .in_progress => "in_progress"
  | .completed => "completed"
  | .failed => "failed"
  | .cancelled => "cancelled"
  | .expired => "expired"

/-- Variant B test `["failed", "expired", "cancelled"].includes(status.status)`. -/
def isFailTerminal : RunStatus → Bool
  | .failed | .expired | .cancelled => true
  | _ => false

/-- One content segment of an upstream thread message: the source reads
`c.type` and, for text segments, `c.text.value`. -/
inductive ContentSeg
  | textSeg (value : String)
  | otherSeg (kind : String)
deriving DecidableEq, Repr

/-- An upstream thread message as returned by `messages.list`. -/
structure ThreadMsg where
  role : String
  content : List ContentSeg
deriving DecidableEq, Repr

/-- The per-segment string of both extraction variants:
`c.type === "text" ? c.text.value : ""`. -/
def segToStr : ContentSeg → String
  | .textSeg v => v
  | .otherSeg _ => ""

/-- Reply extraction of variant A (`assistant.mts` lines 60–66): filter the
newest-first message page to assistant messages, take the first, map each
content segment to its text (or empty), join with newlines, and substitute
"(no response)" when the result is empty or no assistant message exists.
No trimming is applied. -/
def extractReplyA (data : List ThreadMsg) : String :=
  match (data.filter (fun m => m.role == "assistant")).head? with
  | none => "(no response)"
  | some latest =>
    let joined := String.intercalate "\n" (latest.content.map segToStr)
    if joined = "" then "(no response)" else joined

/-- Reply extraction of variant B (`assistant.mts` lines 144–152): find the
first assistant message of the newest-first page (`order: "desc", limit: 10`),
map each content segment to its text (or empty), join with newlines and trim;
empty string when no assistant message exists. -/
def extractReplyB (data : List ThreadMsg) : String :=
  match data.find? (fun m => m.role == "assistant") with
  | none => ""
  | some lastAssistant =>
    jsTrim (String.intercalate "\n" (lastAssistant.content.map segToStr))

/-- Reply extraction as the specification sentence states it: from the
newest-first list take the most recent message with role assistant and
concatenate all of its text-typed content segments in order, joined by
newlines, trimming surrounding whitespace.  (Definition follows the spec
wording, for comparison with the source embeddings above.) -/
def specReplyExtract (data : List ThreadMsg) : Option String :=
  (data.find? (fun m => m.role == "assistant")).map (fun m =>
    jsTrim (String.intercalate "\n" (m.content.filterMap (fun c =>
      match c with
      | .textSeg v => some v
      | .otherSeg _ => none))))

/-- Scripted behaviour of the upstream provider during one non-streaming
turn: the id `threads.create()` would mint, the status carried by the run
object `runs.create` returns, the status the i-th `runs.retrieve` call
reports, and the message page `messages.list` returns (newest first). -/
structure UpstreamTurn where
  newThreadId : String
  runInitialStatus : RunStatus
  retrieveStatus : Nat → RunStatus
  listData : List ThreadMsg

/-- An HTTP response as the handlers build one: status code and body text. -/
structure HttpResponse where
  status : Nat
  body : String
deriving DecidableEq, Repr

/-- Poll loop of variant A (`assistant.mts` lines 46–51): up to 30 retrieves
at 1 s intervals starting from the created run object, breaking as soon as
`completed` or `failed` is observed (`cancelled` and `expired` do not
break).  Returns the final observed status and the number of retrieve calls
made. -/
def pollAGo (retrieve : Nat → RunStatus) : RunStatus → Nat → Nat → RunStatus × Nat
  | cur, i, 0 => (cur, i)
  | _, i, fuel + 1 =>
    let s := retrieve i
    if s = .completed ∨ s = .failed then (s, i + 1)
    else pollAGo retrieve s (i + 1) fuel

/-- The full poll loop of variant A: `for (let i = 0; i < 30; i++)`. -/
def pollA (u : UpstreamTurn) : RunStatus × Nat :=
  pollAGo u.retrieveStatus u.runInitialStatus 0 30

/-- Variant A handler from the point after thread resolution (`assistant.mts`
lines 37–73): append the user message, start the run, poll, then return the
generic 500 when the final status is not `completed`, else the 200 reply. -/
def handlerA_afterResolve (u : UpstreamTurn) (finalThreadId : String) : HttpResponse :=
  let st := (pollA u).1
  if st ≠ .completed then
    { status := 500
      body := jsonStringifyPairs [("error", "Assistant run did not complete")] }
  else
    { status := 200
      body := jsonStringifyPairs
        [("reply", extractReplyA u.listData), ("threadId", finalThreadId)] }

/-- Outcome of the variant B poll loop. -/
inductive PollBOut
  | failTerminal (s : RunStatus) (attempts : Nat)
  | exitLoop (s : RunStatus) (attempts : Nat)
  | fuelOut
deriving DecidableEq, Repr

/-- Wall-clock elapsed after the k-th in-loop retrieve of variant B: each
iteration sleeps 500 ms and then performs a retrieve taking `lat i` ms. -/
def elapsedB (lat : Nat → Nat) : Nat → Nat
  | 0 => 0
  | k + 1 => elapsedB lat k + 500 + lat (k + 1)

/-- Poll loop of variant B (`assistant.mts` lines 130–142):

    let status = retrieve(0); const start = Date.now();
    while (status.status !== "completed") \x7b
      if (["failed", "expired", "cancelled"].includes(status.status)) return 500;
      await sleep(500); status = retrieve(k);
      if (Date.now() - start > 24000) break;
    \x7d

State: current status and the count j of in-loop retrieves made so far.
`attempts` in the result counts all retrieve calls including the initial
one.  The fuel argument only bounds recursion; `pollB_no_fuelOut` below
shows the `fuelOut` branch is unreachable from the initial state. -/
def pollBGo (retrieve : Nat → RunStatus) (lat : Nat → Nat) :
    Nat → RunStatus → Nat → PollBOut
  | 0, _, _ => .fuelOut
  | fuel + 1, s, j =>
    if s = .completed then .exitLoop s (j + 1)
    else if isFailTerminal s then .failTerminal s (j + 1)
    else
      let s' := retrieve (j + 1)
      if elapsedB lat (j + 1) > 24000 then .exitLoop s' (j + 2)
      else pollBGo retrieve lat fuel s' (j + 1)

/-- The full poll loop of variant B, starting from the initial retrieve. -/
def pollB (retrieve : Nat → RunStatus) (lat : Nat → Nat) : PollBOut :=
  pollBGo retrieve lat 50 (retrieve 0) 0

/-- Environment of variant B (`Netlify.env`). -/
structure EnvB where
  apiKey : Option String
  asstId : Option String

/-- Request body of variant B; `text = none` models a missing or non-string
`text` field. -/
structure ReqB where
  method : String
  text : Option String
  threadId : Option String
  assistantId : Option String

/-- Resolution of the assistant identifier in variant B:
`(assistantId && String(assistantId)) || Netlify.env.get("OPENAI_ASSISTANT_ID") || undefined`. -/
def resolveAsstId (assistantId : Option String) (envAsstId : Option String) :
    Option String :=
  match jsOrStr assistantId envAsstId with
  | some s => if s = "" then none else some s
  | none => none

/-- Upstream calls variant B makes, recorded in order for the effect trace. -/
inductive UpstreamCall
  | createThread
  | createMessage (threadId text : String)
  | createRun (threadId asstId : String)
  | retrieveRun (idx : Nat)
  | listMessages (threadId : String)
deriving DecidableEq, Repr

/-- Trace entries of k retrieve calls. -/
def retrieveTrace (k : Nat) : List UpstreamCall :=
  (List.range k).map .retrieveRun

/-- Variant B handler (`assistant.mts` lines 87–167), modelled together with
the ordered trace of upstream calls it makes.  The upstream calls themselves
are scripted by `u`; thrown upstream errors are outside this model (the
catch-all 500 is not claimed).  The 599 response is the unreachable
`fuelOut` placeholder. -/
def handlerB (req : ReqB) (env : EnvB) (u : UpstreamTurn) (lat : Nat → Nat) :
    HttpResponse × List UpstreamCall :=
  if req.method ≠ "POST" then
    ({ status := 405, body := "Method Not Allowed" }, [])
  else
    match req.text with
    | none =>
      ({ status := 400, body := jsonStringifyPairs [("error", "Missing \x27text\x27.")] }, [])
    | some text =>
      if text = "" then
        ({ status := 400, body := jsonStringifyPairs [("error", "Missing \x27text\x27.")] }, [])
      else if jsFalsyOpt env.apiKey then
        ({ status := 500, body := jsonStringifyPairs [("error", "OPENAI_API_KEY not set")] }, [])
      else
        let asstId := resolveAsstId req.assistantId env.asstId
        let createdNew := jsFalsyOpt req.threadId
        let tId := if createdNew then u.newThreadId else req.threadId.getD ""
        let trace1 := (if createdNew then [UpstreamCall.createThread] else []) ++
          [UpstreamCall.createMessage tId text]
        match asstId with
        | none =>
          ({ status := 500
             body := jsonStringifyPairs [("error",
               "Assistant ID missing. Provide OPENAI_ASSISTANT_ID env var or pass assistantId in the request.")] },
           trace1)
        | some aid =>
          let trace2 := trace1 ++ [UpstreamCall.createRun tId aid]
          match pollB u.retrieveStatus lat with
          | .failTerminal t k =>
            ({ status := 500
               body := jsonStringifyPairs [("error", runStatusText t), ("threadId", tId)] },
             trace2 ++ retrieveTrace k)
          | .exitLoop _ k =>
            ({ status := 200
               body := jsonStringifyPairs
                 [("reply", extractReplyB u.listData), ("threadId", tId)] },
             trace2 ++ retrieveTrace k ++ [UpstreamCall.listMessages tId])
          | .fuelOut => ({ status := 599, body := "" }, trace2)

/-! Streaming relay (`/api/avery`, part_002) and the browser SSE consumer
(`useSSE` in part_000). -/

/-- A server-sent frame produced by the streaming relay. -/
inductive StreamFrame
  | delta (token : String)
  | done
  | errorFrame (message : String)
deriving DecidableEq, Repr

/-- The JSON object literal serialized into a frame (part_002 lines 53, 59
and 61): delta frames carry `\x7btype, delta\x7d`, the done frame `\x7btype\x7d`, and the
error frame only `\x7bmessage\x7d`. -/
def framePayload : StreamFrame → List (String × String)
  | .delta tok => [("type", "delta"), ("delta", tok)]
  | .done => [("type", "done")]
  | .errorFrame msg => [("message", msg)]

/-- Wire text of a frame as the relay builds it, without the trailing blank
line that separates frames: delta and done frames are
`data:<json>`, the error frame is `event: error\ndata:<json>`. -/
def frameText (f : StreamFrame) : String :=
  match f with
  | .errorFrame _ => "event: error\ndata:" ++ jsonStringifyPairs (framePayload f)
  | _ => "data:" ++ jsonStringifyPairs (framePayload f)

/-- Terminal frames of the stream-event protocol. -/
def isTerminalFrame : StreamFrame → Bool
  | .delta _ => false
  | .done => true
  | .errorFrame _ => true

/-- Scripted behaviour of the upstream token stream: the chunk contents
produced (`chunk.choices?.[0]?.delta?.content ?? ""`), then either normal
completion or a thrown error with the given message.  `errAfter cs msg`
throws after producing `cs` — in particular `errAfter [] msg` models the
upstream call failing before any token. -/
inductive UpstreamStream
  | okStream (chunks : List String)
  | errAfter (chunks : List String) (message : String)

/-- Chunks of the scripted stream. -/
def chunksOf : UpstreamStream → List String
  | .okStream cs => cs
  | .errAfter cs _ => cs

/-- Delta frames enqueued for a chunk list: one per nonempty token
(`if (token) controller.enqueue(...)`). -/
def deltaFramesOf (chunks : List String) : List StreamFrame :=
  (chunks.filter (fun t => t ≠ "")).map .delta

/-- The terminal frame the relay enqueues: `done` on normal completion of
the for-await loop, the error frame from the catch block otherwise. -/
def terminalOf : UpstreamStream → StreamFrame
  | .okStream _ => .done
  | .errAfter _ msg => .errorFrame msg

/-- Frames enqueued by the ReadableStream start callback (part_002 lines
39–65): the try block forwards each nonempty token as a delta frame and
then enqueues `done`; the catch block enqueues a single error frame and
closes; either way the controller is closed right after the terminal
frame. -/
def relayFrames : UpstreamStream → List StreamFrame
  | .okStream cs => deltaFramesOf cs ++ [.done]
  | .errAfter cs msg => deltaFramesOf cs ++ [.errorFrame msg]

/-- Request to the streaming endpoint; `message = none` models a missing or
non-string `message` field. -/
structure StreamReq where
  method : String
  message : Option String

/-- Response of the streaming endpoint: either a plain response or the
chunked event-stream whose body carries the given frames. -/
inductive StreamResponse
  | plain (status : Nat) (body : String)
  | eventStream (status : Nat) (contentType : String) (frames : List StreamFrame)
deriving DecidableEq, Repr

/-- The `/api/avery` handler (part_002): method and message validation, then
a 200 event-stream response whose body is produced by the ReadableStream;
upstream failures happen inside the stream and never affect the handshake. -/
def handlerAvery (req : StreamReq) (u : UpstreamStream) : StreamResponse :=
  if req.method ≠ "POST" then .plain 405 "Method Not Allowed"
  else
    match req.message with
    | none => .plain 400 (jsonStringifyPairs [("error", "Missing \x27message\x27 string.")])
    | some m =>
      if m = "" then .plain 400 (jsonStringifyPairs [("error", "Missing \x27message\x27 string.")])
      else .eventStream 200 "text/event-stream; charset=utf-8" (relayFrames u)

/-- One handler invocation by the SSE consumer: `onToken` with the value of
the delta field (absent when the payload has none), or `onDone`. -/
inductive SSECall
  | tok (delta : Option String)
  | doneCall
deriving DecidableEq, Repr

/-- JS `part.startsWith("data:")`. -/
def jsStartsWithData (part : String) : Bool :=
  List.isPrefixOf "data:".data part.data

/-- JS `part.slice(5)`. -/
def jsSlice5 (part : String) : String := ⟨part.data.drop 5⟩

/-- Handler invocations of the `useSSE` frame-parse loop (part_000 lines
26–32) for one received part:

    if (part.startsWith("data:")) \x7b
      const payload = JSON.parse(part.slice(5));
      if (payload.type === "delta") onToken?.(payload.delta);
      if (payload.type === "done") onDone?.();
    \x7d

`none` models `JSON.parse` throwing, which rejects the read loop. -/
def ssePartCalls (part : String) : Option (List SSECall) :=
  if jsStartsWithData part then
    match jsonParsePairs (jsSlice5 part) with
    | none => none
    | some ps =>
      some ((if ps.lookup "type" = some "delta" then [SSECall.tok (ps.lookup "delta")] else []) ++
            (if ps.lookup "type" = some "done" then [SSECall.doneCall] else []))
  else some []

/-- Handler invocations over the whole sequence of received parts; a parse
failure aborts the loop with no further invocations. -/
def sseAllCalls : List String → List SSECall
  | [] => []
  | p :: rest =>
    match ssePartCalls p with
    | none => []
    | some cs => cs ++ sseAllCalls rest

/-- The `isStreaming` flag of `AveryChat.send` (part_000): set when the
stream is opened, cleared only in the `onDone` callback. -/
def isStreamingAfter (calls : List SSECall) : Bool :=
  calls.foldl (fun fl c => match c with | .doneCall => false | _ => fl) true

/-! Concrete scenario scripts used by the scenario theorems below. -/

/-- Script whose retrieves are never terminal: the run stays `in_progress`
forever. -/
def scriptNever : UpstreamTurn :=
  { newThreadId := "th_new"
    runInitialStatus := .queued
    retrieveStatus := fun _ => .in_progress
    listData := [] }

/-- Script realizing the observed status sequence
[queued, in_progress, in_progress, failed] for variant A: the run object is
created `queued` and the three retrieves report the rest. -/
def scriptFailA : UpstreamTurn :=
  { newThreadId := "th_new"
    runInitialStatus := .queued
    retrieveStatus := fun i => if i < 2 then .in_progress else .failed
    listData := [] }

/-- Script realizing the observed status sequence
[queued, in_progress, in_progress, failed] for variant B, whose first
retrieve is the initial one. -/
def scriptFailB : UpstreamTurn :=
  { newThreadId := "th_new"
    runInitialStatus := .queued
    retrieveStatus := fun i => if i = 0 then .queued else if i < 3 then .in_progress else .failed
    listData := [] }

/-- A well-formed request to variant B with no explicit thread. -/
def reqStd : ReqB :=
  { method := "POST", text := some "hi", threadId := none, assistantId := none }

/-- Environment with both credentials configured. -/
def envStd : EnvB := { apiKey := some "k", asstId := some "asst_1" }

/-- Environment with an API key but no default assistant id. -/
def envNoAsst : EnvB := { apiKey := some "k", asstId := none }

/-- Zero retrieve latency. -/
def latZero : Nat → Nat := fun _ => 0

/-- A newest-first message page whose assistant message mixes text and
non-text content segments. -/
def replyMsgsMixed : List ThreadMsg :=
  [{ role := "assistant"
     content := [.textSeg " a ", .otherSeg "image_file", .textSeg "b"] }]


/-- A newest-first message page whose assistant message has only text
segments. -/
def replyMsgsText : List ThreadMsg :=
  [{ role := "assistant", content := [.textSeg " a ", .textSeg "b"] }]

/-- A failed user message, for the retry scenario. -/
def failedMsg1 : ChatMessage :=
  { id := "m1", role := "user", text := "hi", timestamp := 5, status := some .failed }

theorem threadMapGet_set_ne (m : ThreadMap) (k k' v : String) (h : k ≠ k') :
    threadMapGet (threadMapSet m k v) k' = threadMapGet m k' := by
  induction m with
  | nil =>
    have hk : (k == k') = false := by
      simp only [beq_eq_false_iff_ne]; exact h
    simp [threadMapSet, threadMapGet, List.find?, hk]
  | cons p rest ih =>
    obtain ⟨pk, pv⟩ := p
    by_cases hpk : pk = k
    · subst hpk
      have hk' : (pk == k') = false := by
        simp only [beq_eq_false_iff_ne]; exact h
      simp [threadMapSet, threadMapGet, List.find?, hk']
    · have hpk' : (pk == k) = false := by
        simp only [beq_eq_false_iff_ne]; exact hpk
      by_cases hpk2 : pk = k'
      · subst hpk2
        simp [threadMapSet, threadMapGet, List.find?, hpk']
      · have hpk2' : (pk == k') = false := by
          simp only [beq_eq_false_iff_ne]; exact hpk2
        have hne : ¬ ((pk == k) = true) := by simp [hpk']
        simp only [threadMapSet]
        rw [if_neg hne]
        simpa [threadMapGet, List.find?, hpk2'] using ih

/-- A step of the index never disturbs an established nonempty mapping, and a
submission for that session with no explicit thread id resolves to it. -/
theorem resolveThread_stable (m : ThreadMap) (s c : String)
    (h : threadMapGet m s = some c) (hc : c ≠ "") (r : ThreadReq) :
    threadMapGet (resolveThread m r.threadId r.sessionId r.newThreadId).map s = some c ∧
    (r.sessionId = s → r.threadId = none →
      (resolveThread m r.threadId r.sessionId r.newThreadId).finalThreadId = c) := by
  by_cases hs : r.sessionId = s
  · subst hs
    have hcb : (c == "") = false := by
      simp only [beq_eq_false_iff_ne]; exact hc
    cases ht : r.threadId with
    | none =>
      constructor
      · simp [resolveThread, ht, h, jsOrStr, jsFalsyOpt, hcb]
      · intro _ _
        simp [resolveThread, ht, h, jsOrStr, jsFalsyOpt, hcb]
    | some t =>
      by_cases htr : jsTruthy t
      · have htb : (t == "") = false := by
          simp only [beq_eq_false_iff_ne]
          simpa [jsTruthy] using htr
        constructor
        · simp [resolveThread, ht, h, jsOrStr, jsFalsyOpt, htr, htb]
        · intro _ hnone
          simp [ht] at hnone
      · constructor
        · simp [resolveThread, ht, h, jsOrStr, jsFalsyOpt, htr, hcb]
        · intro _ hnone
          simp [ht] at hnone
  · constructor
    · unfold resolveThread
      cases hfal : jsFalsyOpt (jsOrStr r.threadId (threadMapGet m r.sessionId)) with
      | true =>
        simp only [hfal, if_pos rfl]
        exact (threadMapGet_set_ne m r.sessionId s r.newThreadId hs).trans h
      | false =>
        simp [hfal, h]
    · intro hss
      exact absurd hss hs

/-- C4: for every sequence of valid (sessionId, text) submissions within one
process lifetime, once a conversationId has been created for a sessionId
(i.e. the index maps that session to a nonempty conversation id), every later
submission carrying that same sessionId and no explicit threadId resolves to
the same conversationId, and the index entry is never disturbed. -/
theorem c4_same_session_resolves_same_conversation (m : ThreadMap) (s c : String)
    (h : threadMapGet m s = some c) (hc : c ≠ "") (reqs : List ThreadReq) :
    threadMapGet (processThreadReqs m reqs).1 s = some c ∧
    ∀ p ∈ (processThreadReqs m reqs).2,
      p.1.sessionId = s → p.1.threadId = none → p.2 = c := by
  induction reqs generalizing m with
  | nil =>
    simp [processThreadReqs, h]
  | cons r rest ih =>
    have hstep := resolveThread_stable m s c h hc r
    have hrec := ih (resolveThread m r.threadId r.sessionId r.newThreadId).map hstep.1
    refine ⟨?_, ?_⟩
    · simpa [processThreadReqs] using hrec.1
    · intro p hp hps hpt
      simp only [processThreadReqs] at hp
      rcases List.mem_cons.mp hp with hp | hp
      · subst hp
        exact hstep.2 hps hpt
      · exact hrec.2 p hp hps hpt

theorem c4_same_session_resolves_same_conversation_witness :
    threadMapGet [("s1", "th_1")] "s1" = some "th_1" ∧ "th_1" ≠ "" ∧
    (threadMapGet (processThreadReqs [("s1", "th_1")]
        [⟨"s1", none, "th_X"⟩, ⟨"s2", none, "th_Y"⟩, ⟨"s1", none, "th_Z"⟩]).1 "s1"
      = some "th_1" ∧
    ∀ p ∈ (processThreadReqs [("s1", "th_1")]
        [⟨"s1", none, "th_X"⟩, ⟨"s2", none, "th_Y"⟩, ⟨"s1", none, "th_Z"⟩]).2,
      p.1.sessionId = "s1" → p.1.threadId = none → p.2 = "th_1") :=
  ⟨by decide, by decide,
    c4_same_session_resolves_same_conversation [("s1", "th_1")] "s1" "th_1"
      (by decide) (by decide)
      [⟨"s1", none, "th_X"⟩, ⟨"s2", none, "th_Y"⟩, ⟨"s1", none, "th_Z"⟩]⟩

/-- C9 counterexample: supplying a threadId does NOT update the session index.
Starting from an empty index, a submission for session "s1" carrying explicit
thread id "th_A" leaves the index empty, so the next submission for "s1" with
no threadId creates a fresh conversation "th_B" instead of resolving to
"th_A" — refuting the claim that later calls resolve to the supplied id. -/
theorem c9_counterexample :
    (resolveThread [] (some "th_A") "s1" "th_unused").map = ([] : ThreadMap) ∧
    (resolveThread (resolveThread [] (some "th_A") "s1" "th_unused").map
        none "s1" "th_B").finalThreadId = "th_B" ∧
    "th_B" ≠ "th_A" := by decide

/-- C9 (amended): when the request supplies a nonempty threadId, that
identifier is used for the turn, but the session index is left unchanged (no
entry is created or overwritten); later calls with the same sessionId and no
threadId therefore resolve to whatever the index held before, not to the
supplied identifier. -/
theorem c9_supplied_thread_used_index_unchanged (m : ThreadMap) (s t nid : String)
    (ht : t ≠ "") :
    resolveThread m (some t) s nid
      = { finalThreadId := t, map := m, createdThread := false } := by
  have htb : (t == "") = false := by
    simp only [beq_eq_false_iff_ne]; exact ht
  have htr : jsTruthy t = true := by
    simp [jsTruthy, ht]
  simp [resolveThread, jsOrStr, jsFalsyOpt, htr, htb]

theorem c9_supplied_thread_used_index_unchanged_witness :
    "th_A" ≠ "" ∧
    resolveThread [("s0", "th_0")] (some "th_A") "s1" "th_new"
      = { finalThreadId := "th_A", map := [("s0", "th_0")], createdThread := false } :=
  ⟨by decide,
    c9_supplied_thread_used_index_unchanged [("s0", "th_0")] "s1" "th_A" "th_new"
      (by decide)⟩

/-! Helper lemmas: JSON round trip for plain strings, wire-prefix facts. -/

theorem plain_escape_id (c : Char) (h : plainChar c = true) : jsonEscapeChar c = [c] := by
  simp only [plainChar, Bool.and_eq_true, decide_eq_true_eq] at h
  obtain ⟨⟨h1, h2⟩, h3⟩ := h
  have hn : ¬ c.toNat < 32 := by omega
  have e1 : c ≠ '\n' := by intro he; subst he; simp at h3
  have e2 : c ≠ '\r' := by intro he; subst he; simp at h3
  have e3 : c ≠ '\t' := by intro he; subst he; simp at h3
  have e4 : c ≠ '\x08' := by intro he; subst he; simp at h3
  have e5 : c ≠ '\x0c' := by intro he; subst he; simp at h3
  simp [jsonEscapeChar, h1, h2, e1, e2, e3, e4, e5, hn]

theorem escape_flatMap_id (l : List Char) (h : ∀ c ∈ l, plainChar c = true) :
    l.flatMap jsonEscapeChar = l := by
  induction l with
  | nil => rfl
  | cons c l' ih =>
    rw [List.flatMap_cons, plain_escape_id c (h c (by simp)),
      ih (fun d hd => h d (by simp [hd]))]
    rfl

theorem jsonQuote_data (s : String) (h : plainStr s = true) :
    (jsonQuote s).data = '"' :: (s.data ++ ['"']) := by
  simp only [plainStr, List.all_eq_true] at h
  simp only [jsonQuote]
  rw [escape_flatMap_id s.data (fun c hc => h c hc)]

theorem parseStr_rt (l : List Char) (rest : List Char) (h : ∀ c ∈ l, plainChar c = true) :
    jsonParseStrAux (l ++ '"' :: rest) = some (l, rest) := by
  induction l with
  | nil =>
    rw [List.nil_append, jsonParseStrAux.eq_def]
    simp
  | cons c l' ih =>
    have hc := h c (by simp)
    simp only [plainChar, Bool.and_eq_true, decide_eq_true_eq] at hc
    obtain ⟨⟨h1, h2⟩, h3⟩ := hc
    have hrec := ih (fun d hd => h d (by simp [hd]))
    rw [List.cons_append, jsonParseStrAux.eq_def]
    simp [h1, h2, hrec]

theorem pairsBody_length (ps : List (String × String)) :
    ps.length ≤ (jsonPairsBody ps).data.length + 1 := by
  induction ps with
  | nil => simp
  | cons p rest ih =>
    cases rest with
    | nil =>
      simp [jsonPairsBody, jsonQuote, String.data_append]
    | cons q rest' =>
      simp only [jsonPairsBody, String.data_append, List.length_append, List.length_cons] at ih ⊢
      simp [jsonQuote] at ih ⊢
      omega

theorem pairsGo_rt (ps : List (String × String)) (h : plainPairs ps) :
    ∀ fuel, ps.length < fuel →
      jsonParsePairsGo fuel ((jsonPairsBody ps).data ++ ['\x7d']) = some ps := by
  induction ps with
  | nil =>
    intro fuel hf
    match fuel, hf with
    | fuel + 1, _ =>
      rw [jsonParsePairsGo.eq_def]
      simp [jsonPairsBody]
  | cons p rest ih =>
    intro fuel hf
    match fuel, hf with
    | fuel + 1, hf =>
      obtain ⟨hk, hv⟩ := h p (by simp)
      have hkd : ∀ c ∈ p.1.data, plainChar c = true := by
        simpa only [plainStr, List.all_eq_true] using hk
      have hvd : ∀ c ∈ p.2.data, plainChar c = true := by
        simpa only [plainStr, List.all_eq_true] using hv
      cases rest with
      | nil =>
        have hinput : ((jsonPairsBody [p]).data ++ ['\x7d'])
            = '"' :: (p.1.data ++ '"' :: (':' :: '"' :: (p.2.data ++ '"' :: ['\x7d']))) := by
          simp [jsonPairsBody, String.data_append, jsonQuote_data p.1 hk, jsonQuote_data p.2 hv]
        rw [hinput]
        simp only [jsonParsePairsGo]
        rw [if_neg (by simp)]
        simp only [parseStr_rt p.1.data (':' :: '"' :: (p.2.data ++ '"' :: ['\x7d'])) hkd,
          parseStr_rt p.2.data ['\x7d'] hvd]
      | cons q rest' =>
        have hrec := ih (fun x hx => h x (by simp [hx])) fuel
          (by simpa using Nat.lt_of_succ_lt_succ hf)
        have hinput : ((jsonPairsBody (p :: q :: rest')).data ++ ['\x7d'])
            = '"' :: (p.1.data ++ '"' :: (':' :: '"' :: (p.2.data ++ '"' :: (',' ::
                ((jsonPairsBody (q :: rest')).data ++ ['\x7d']))))) := by
          simp [jsonPairsBody, String.data_append, jsonQuote_data p.1 hk, jsonQuote_data p.2 hv]
        rw [hinput]
        simp only [jsonParsePairsGo]
        rw [if_neg (by simp)]
        simp only [parseStr_rt p.1.data _ hkd,
          parseStr_rt p.2.data (',' :: ((jsonPairsBody (q :: rest')).data ++ ['\x7d'])) hvd,
          hrec]
        rfl

theorem jsonParsePairs_rt (ps : List (String × String)) (h : plainPairs ps) :
    jsonParsePairs (jsonStringifyPairs ps) = some ps := by
  have hdata : (jsonStringifyPairs ps).data = '\x7b' :: ((jsonPairsBody ps).data ++ ['\x7d']) := by
    simp [jsonStringifyPairs, String.data_append]
  rw [jsonParsePairs, hdata]
  have hlen : ps.length < ((jsonPairsBody ps).data ++ ['\x7d']).length + 1 := by
    have := pairsBody_length ps
    simp only [List.length_append, List.length_cons, List.length_nil]
    omega
  exact pairsGo_rt ps h _ hlen

theorem jsStartsWithData_data (j : String) : jsStartsWithData ("data:" ++ j) = true := by
  simp only [jsStartsWithData, String.data_append]
  show List.isPrefixOf ['d', 'a', 't', 'a', ':'] (['d', 'a', 't', 'a', ':'] ++ j.data) = true
  simp [List.isPrefixOf]

theorem jsStartsWithData_event (j : String) :
    jsStartsWithData ("event: error\ndata:" ++ j) = false := by
  simp only [jsStartsWithData, String.data_append]
  show List.isPrefixOf ['d', 'a', 't', 'a', ':']
    (['e', 'v', 'e', 'n', 't', ':', ' ', 'e', 'r', 'r', 'o', 'r', '\n',
      'd', 'a', 't', 'a', ':'] ++ j.data) = false
  simp [List.isPrefixOf]

theorem jsSlice5_data (j : String) : jsSlice5 ("data:" ++ j) = j := by
  apply String.ext
  simp only [jsSlice5, String.data_append]
  show (['d', 'a', 't', 'a', ':'] ++ j.data).drop 5 = j.data
  simp
theorem pollAGo_all (retrieve : Nat → RunStatus)
    (h : ∀ i, ¬(retrieve i = .completed ∨ retrieve i = .failed)) :
    ∀ fuel cur i, 1 ≤ fuel → pollAGo retrieve cur i fuel = (retrieve (i + fuel - 1), i + fuel) := by
  intro fuel
  induction fuel with
  | zero => intro cur i h1; omega
  | succ fuel ih =>
    intro cur i _
    simp only [pollAGo]
    rw [if_neg (h i)]
    cases fuel with
    | zero => simp [pollAGo]
    | succ fuel' =>
      rw [ih (retrieve i) (i + 1) (by omega)]
      have h1 : i + 1 + (fuel' + 1) - 1 = i + (fuel' + 1 + 1) - 1 := by omega
      have h2 : i + 1 + (fuel' + 1) = i + (fuel' + 1 + 1) := by omega
      rw [h1, h2]

theorem elapsedB_ge (lat : Nat → Nat) (k : Nat) : 500 * k ≤ elapsedB lat k := by
  induction k with
  | zero => simp [elapsedB]
  | succ k ih =>
    rw [elapsedB]
    omega

theorem pollBGo_nonterminal (retrieve : Nat → RunStatus) (lat : Nat → Nat)
    (h : ∀ i, retrieve i ≠ .completed ∧ isFailTerminal (retrieve i) = false) :
    ∀ fuel j s, s ≠ .completed → isFailTerminal s = false → 48 < j + fuel → 0 < fuel →
      ∃ s' k, pollBGo retrieve lat fuel s j = .exitLoop s' k ∧ k ≤ j + fuel + 1 := by
  intro fuel
  induction fuel with
  | zero => intro j s _ _ _ h0; omega
  | succ fuel ih =>
    intro j s hs hsf hjf _
    simp only [pollBGo]
    rw [if_neg hs]
    simp only [hsf, Bool.false_eq_true, if_false]
    by_cases he : elapsedB lat (j + 1) > 24000
    · exact ⟨retrieve (j + 1), j + 2, by rw [if_pos he], by omega⟩
    · have hj : j + 1 ≤ 48 := by
        have := elapsedB_ge lat (j + 1)
        omega
      have hrec := ih (j + 1) (retrieve (j + 1)) (h (j + 1)).1 (h (j + 1)).2
        (by omega) (by omega)
      obtain ⟨s', k, hk, hkle⟩ := hrec
      exact ⟨s', k, by rw [if_neg he]; exact hk, by omega⟩

theorem pollB_nonterminal (retrieve : Nat → RunStatus) (lat : Nat → Nat)
    (h : ∀ i, retrieve i ≠ .completed ∧ isFailTerminal (retrieve i) = false) :
    ∃ s' k, pollB retrieve lat = .exitLoop s' k ∧ k ≤ 51 := by
  obtain ⟨s', k, hk, hkle⟩ := pollBGo_nonterminal retrieve lat h 50 0 (retrieve 0)
    (h 0).1 (h 0).2 (by omega) (by omega)
  exact ⟨s', k, hk, by omega⟩

/-! Claim theorems. -/

/-- C5 (code bug): the delivery status DOES regress when the backend call
settles before the optimistic receipt timers fire.  With the call failing
50 ms after the send, `markStatus(id, "failed", 0)` applies first and the
still-pending `sent` (200 ms) and `delivered` (600 ms) timers then overwrite
it: the status trace is sending, failed, sent, delivered — a regression out
of the terminal `failed` with no user-initiated retry, ending at `delivered`
— contradicting the claimed invariant, which the trace violates. -/
theorem c5_status_regression_code_bug :
    statusTrace .failed 50 = [.sending, .failed, .sent, .delivered] ∧
    traceOk (statusTrace .failed 50) = false ∧
    (statusTrace .failed 50).getLast? = some .delivered ∧
    traceOk (statusTrace .read 300) = false := by decide

/-- C6 counterexample: `retry` DOES mutate the failed message out of its
failed status.  Retrying the failed message m1 leaves the list with m1 set
back to `sending` (not `failed`) alongside the newly created copy. -/
theorem c6_counterexample :
    retryThenSend [failedMsg1] failedMsg1 false "m2" 99
      = [{ id := "m1", role := "user", text := "hi", timestamp := 5, status := some .sending },
         { id := "m2", role := "user", text := "hi", timestamp := 99, status := some .sending }] ∧
    (retryThenSend [failedMsg1] failedMsg1 false "m2" 99).head?.map ChatMessage.status
      = some (some .sending) ∧
    some MessageStatus.sending ≠ some MessageStatus.failed := by decide

/-- C6 (amended): a user-initiated retry of a failed message creates a new
message in the `sending` state carrying the original (trimmed) text — and in
addition mutates the failed message itself, resetting its status to
`sending` rather than leaving it `failed`. -/
theorem c6_retry_amended (msgs : List ChatMessage) (msg : ChatMessage)
    (newId : String) (now : Nat) (h : jsTrim msg.text ≠ "") :
    retryThenSend msgs msg false newId now
      = setStatusById msgs msg.id .sending ++
        [{ id := newId, role := "user", text := jsTrim msg.text,
           timestamp := now, status := some .sending }] := by
  simp [retryThenSend, h]

theorem c6_retry_amended_witness :
    jsTrim failedMsg1.text ≠ "" ∧
    retryThenSend [failedMsg1] failedMsg1 false "m2" 99
      = setStatusById [failedMsg1] failedMsg1.id .sending ++
        [{ id := "m2", role := "user", text := jsTrim failedMsg1.text,
           timestamp := 99, status := some .sending }] :=
  ⟨by decide, c6_retry_amended [failedMsg1] failedMsg1 "m2" 99 (by decide)⟩

theorem nonterminal_not_completed_or_failed (u : UpstreamTurn)
    (hnt : ∀ i, u.retrieveStatus i ≠ .completed ∧ isFailTerminal (u.retrieveStatus i) = false) :
    ∀ i, ¬(u.retrieveStatus i = .completed ∨ u.retrieveStatus i = .failed) := by
  intro i hor
  rcases hor with hc | hf
  · exact (hnt i).1 hc
  · have := (hnt i).2
    rw [hf] at this
    simp [isFailTerminal] at this

/-- C2 (code bug): when polling never observes a terminal status, variant A
does return 500 with a timeout-indicating body after exactly its 30
configured poll attempts — but variant B exits its poll loop through the
24 s timeout break and then falls through to the message-listing path,
returning HTTP 200 instead of the claimed 500. -/
theorem c2_timeout_divergence (u : UpstreamTurn) (lat : Nat → Nat) (env : EnvB)
    (text : String) (threadId assistantId : Option String) (aid : String)
    (htext : text ≠ "")
    (hkey : jsFalsyOpt env.apiKey = false)
    (haid : resolveAsstId assistantId env.asstId = some aid)
    (hnt : ∀ i, u.retrieveStatus i ≠ .completed ∧ isFailTerminal (u.retrieveStatus i) = false) :
    (handlerB { method := "POST", text := some text, threadId := threadId,
                assistantId := assistantId } env u lat).1.status = 200 ∧
    (∀ tid, handlerA_afterResolve u tid
      = { status := 500
          body := jsonStringifyPairs [("error", "Assistant run did not complete")] }) ∧
    (pollA u).2 = 30 := by
  obtain ⟨s', k, hpoll, hkle⟩ := pollB_nonterminal u.retrieveStatus lat hnt
  have hA := nonterminal_not_completed_or_failed u hnt
  have hp := pollAGo_all u.retrieveStatus hA 30 u.runInitialStatus 0 (by omega)
  refine ⟨?_, ?_, ?_⟩
  · simp [handlerB, htext, hkey, haid, hpoll]
  · intro tid
    have hfinal : (pollA u).1 = u.retrieveStatus 29 := by
      rw [pollA, hp]
    have hne : (pollA u).1 ≠ .completed := by
      rw [hfinal]; exact (hnt 29).1
    simp [handlerA_afterResolve, hne]
  · rw [pollA, hp]

theorem c2_timeout_divergence_witness :
    ("hi" : String) ≠ "" ∧ jsFalsyOpt envStd.apiKey = false ∧
    resolveAsstId none envStd.asstId = some "asst_1" ∧
    (∀ i, scriptNever.retrieveStatus i ≠ .completed ∧
      isFailTerminal (scriptNever.retrieveStatus i) = false) ∧
    ((handlerB { method := "POST", text := some "hi", threadId := none,
                 assistantId := none } envStd scriptNever latZero).1.status = 200 ∧
     (∀ tid, handlerA_afterResolve scriptNever tid
       = { status := 500
           body := jsonStringifyPairs [("error", "Assistant run did not complete")] }) ∧
     (pollA scriptNever).2 = 30) :=
  ⟨by decide, by decide, by decide,
    fun i => by simp [scriptNever, isFailTerminal],
    c2_timeout_divergence scriptNever latZero envStd "hi" none none "asst_1"
      (by decide) (by decide) (by decide)
      (fun i => by simp [scriptNever, isFailTerminal])⟩

/-- C3 counterexample: on the observed status sequence
[queued, in_progress, in_progress, failed], variant A returns 500 with the
generic body reporting "Assistant run did not complete" — not a body whose
error field is the terminal status "failed" as the claim states. -/
theorem c3_counterexample :
    handlerA_afterResolve scriptFailA "th_1"
      = { status := 500
          body := jsonStringifyPairs [("error", "Assistant run did not complete")] } ∧
    jsonStringifyPairs [("error", "Assistant run did not complete")]
      ≠ jsonStringifyPairs [("error", "failed")] := by decide

/-- C3 (amended): when polling observes a terminal status other than
completed, variant B returns 500 whose JSON body reports that status as the
error (alongside the thread id) and fabricates no reply — in particular the
sequence [queued, in_progress, in_progress, failed] yields
500 with error field "failed" — while variant A returns 500 with the
generic body "Assistant run did not complete" that does not name the
status. -/
theorem c3_run_failed_amended :
    (∀ (u : UpstreamTurn) (lat : Nat → Nat) (env : EnvB) (text : String)
        (threadId assistantId : Option String) (aid : String) (t : RunStatus) (k : Nat),
      text ≠ "" → jsFalsyOpt env.apiKey = false →
      resolveAsstId assistantId env.asstId = some aid →
      pollB u.retrieveStatus lat = .failTerminal t k →
      (handlerB { method := "POST", text := some text, threadId := threadId,
                  assistantId := assistantId } env u lat).1
        = { status := 500
            body := jsonStringifyPairs [("error", runStatusText t),
              ("threadId", if jsFalsyOpt threadId then u.newThreadId else threadId.getD "")] }) ∧
    (handlerB reqStd envStd scriptFailB latZero).1
      = { status := 500
          body := jsonStringifyPairs [("error", "failed"), ("threadId", "th_new")] } ∧
    handlerA_afterResolve scriptFailA "th_1"
      = { status := 500
          body := jsonStringifyPairs [("error", "Assistant run did not complete")] } := by
  refine ⟨?_, by decide, by decide⟩
  intro u lat env text threadId assistantId aid t k htext hkey haid hpoll
  simp [handlerB, htext, hkey, haid, hpoll]

theorem c3_run_failed_amended_witness :
    ("hi" : String) ≠ "" ∧ jsFalsyOpt envStd.apiKey = false ∧
    resolveAsstId none envStd.asstId = some "asst_1" ∧
    pollB scriptFailB.retrieveStatus latZero = .failTerminal .failed 4 ∧
    (handlerB { method := "POST", text := some "hi", threadId := none,
                assistantId := none } envStd scriptFailB latZero).1
      = { status := 500
          body := jsonStringifyPairs [("error", runStatusText .failed),
            ("threadId", if jsFalsyOpt none then scriptFailB.newThreadId
              else (none : Option String).getD "")] } :=
  ⟨by decide, by decide, by decide, by decide,
    c3_run_failed_amended.1 scriptFailB latZero envStd "hi" none none "asst_1" .failed 4
      (by decide) (by decide) (by decide) (by decide)⟩

/-- C7 counterexample: with neither a caller-supplied assistantId nor a
configured default, variant B does return the configuration 500 — but only
AFTER creating the conversation and appending the user message: the
upstream-call trace at the point of failure is
[createThread, createMessage], not empty. -/
theorem c7_counterexample :
    (handlerB reqStd envNoAsst scriptNever latZero).1
      = { status := 500
          body := jsonStringifyPairs [("error",
            "Assistant ID missing. Provide OPENAI_ASSISTANT_ID env var or pass assistantId in the request.")] } ∧
    (handlerB reqStd envNoAsst scriptNever latZero).2
      = [.createThread, .createMessage "th_new" "hi"] ∧
    (handlerB reqStd envNoAsst scriptNever latZero).2 ≠ [] := by decide

/-- C7 (amended): if neither a caller-supplied assistantId nor a configured
default is present, variant B fails with the configuration 500 before
starting the run — no run is created, no status is polled, and no messages
are listed — but only after the conversation is created (when no threadId
was supplied) and after the user message is appended. -/
theorem c7_config_error_after_message (u : UpstreamTurn) (lat : Nat → Nat) (env : EnvB)
    (text : String) (threadId assistantId : Option String)
    (htext : text ≠ "")
    (hkey : jsFalsyOpt env.apiKey = false)
    (haid : resolveAsstId assistantId env.asstId = none) :
    handlerB { method := "POST", text := some text, threadId := threadId,
               assistantId := assistantId } env u lat
      = ({ status := 500
           body := jsonStringifyPairs [("error",
             "Assistant ID missing. Provide OPENAI_ASSISTANT_ID env var or pass assistantId in the request.")] },
         (if jsFalsyOpt threadId then [UpstreamCall.createThread] else []) ++
           [UpstreamCall.createMessage
             (if jsFalsyOpt threadId then u.newThreadId else threadId.getD "") text]) := by
  simp [handlerB, htext, hkey, haid]

theorem c7_config_error_after_message_witness :
    ("hi" : String) ≠ "" ∧ jsFalsyOpt envNoAsst.apiKey = false ∧
    resolveAsstId none envNoAsst.asstId = none ∧
    handlerB { method := "POST", text := some "hi", threadId := none,
               assistantId := none } envNoAsst scriptNever latZero
      = ({ status := 500
           body := jsonStringifyPairs [("error",
             "Assistant ID missing. Provide OPENAI_ASSISTANT_ID env var or pass assistantId in the request.")] },
         (if jsFalsyOpt none then [UpstreamCall.createThread] else []) ++
           [UpstreamCall.createMessage
             (if jsFalsyOpt none then scriptNever.newThreadId
              else (none : Option String).getD "") "hi"]) :=
  ⟨by decide, by decide, by decide,
    c7_config_error_after_message scriptNever latZero envNoAsst "hi" none none
      (by decide) (by decide) (by decide)⟩

theorem filter_head_eq_find (l : List ThreadMsg) (p : ThreadMsg → Bool) :
    (l.filter p).head? = l.find? p := by
  induction l with
  | nil => rfl
  | cons m rest ih =>
    by_cases hm : p m
    · simp [List.filter_cons, List.find?, hm]
    · simp [List.filter_cons, List.find?, hm, ih]

theorem map_eq_filterMap_of_all_text (l : List ContentSeg)
    (h : ∀ c ∈ l, ∃ v, c = .textSeg v) :
    l.map segToStr = l.filterMap (fun c =>
      match c with
      | .textSeg v => some v
      | .otherSeg _ => none) := by
  induction l with
  | nil => rfl
  | cons c rest ih =>
    obtain ⟨v, hv⟩ := h c (by simp)
    subst hv
    simp [segToStr, ih (fun d hd => h d (by simp [hd]))]

/-- C8 counterexample: when the most recent assistant message mixes text and
non-text segments, both variants join ALL segments (non-text ones as empty
strings), so the reply differs from the claimed concatenation of only the
text-typed segments: the spec formula gives "a \nb" while variant A yields
" a \n\nb" (extra empty line, no trim) and variant B yields "a \n\nb". -/
theorem c8_counterexample :
    extractReplyA replyMsgsMixed = " a \n\nb" ∧
    extractReplyB replyMsgsMixed = "a \n\nb" ∧
    specReplyExtract replyMsgsMixed = some "a \nb" ∧
    extractReplyA replyMsgsMixed ≠ (specReplyExtract replyMsgsMixed).getD "" ∧
    extractReplyB replyMsgsMixed ≠ (specReplyExtract replyMsgsMixed).getD "" := by decide

/-- C8 (amended): when every content segment of the most recent assistant
message is text-typed, variant B's reply equals the spec formula — most
recent assistant message of the newest-first page, text segments joined by
newlines, trimmed — while variant A applies no trim and substitutes
"(no response)" when the joined text is empty.  (In general the code maps
non-text segments to empty strings before joining, so each contributes an
empty line.) -/
theorem c8_reply_extraction_amended (data : List ThreadMsg) (m : ThreadMsg)
    (hfind : data.find? (fun x => x.role == "assistant") = some m)
    (hall : ∀ c ∈ m.content, ∃ v, c = ContentSeg.textSeg v) :
    extractReplyB data = (specReplyExtract data).getD "" ∧
    extractReplyA data =
      (if String.intercalate "\n" (m.content.filterMap (fun c =>
          match c with
          | .textSeg v => some v
          | .otherSeg _ => none)) = ""
       then "(no response)"
       else String.intercalate "\n" (m.content.filterMap (fun c =>
          match c with
          | .textSeg v => some v
          | .otherSeg _ => none))) := by
  constructor
  · rw [extractReplyB, hfind, specReplyExtract, hfind]
    simp [map_eq_filterMap_of_all_text m.content hall]
  · rw [extractReplyA, filter_head_eq_find, hfind]
    simp [map_eq_filterMap_of_all_text m.content hall]

theorem c8_reply_extraction_amended_witness :
    replyMsgsText.find? (fun x => x.role == "assistant")
      = some { role := "assistant", content := [.textSeg " a ", .textSeg "b"] } ∧
    (extractReplyB replyMsgsText = (specReplyExtract replyMsgsText).getD "" ∧
     extractReplyA replyMsgsText =
      (if String.intercalate "\n"
          (({ role := "assistant",
              content := [ContentSeg.textSeg " a ", ContentSeg.textSeg "b"] } : ThreadMsg).content.filterMap
            (fun c =>
              match c with
              | .textSeg v => some v
              | .otherSeg _ => none)) = ""
       then "(no response)"
       else String.intercalate "\n"
          (({ role := "assistant",
              content := [ContentSeg.textSeg " a ", ContentSeg.textSeg "b"] } : ThreadMsg).content.filterMap
            (fun c =>
              match c with
              | .textSeg v => some v
              | .otherSeg _ => none)))) :=
  ⟨by decide,
    c8_reply_extraction_amended replyMsgsText
      { role := "assistant", content := [.textSeg " a ", .textSeg "b"] }
      (by decide)
      (by
        intro c hc
        simp only [List.mem_cons, List.not_mem_nil, or_false] at hc
        rcases hc with rfl | rfl
        · exact ⟨" a ", rfl⟩
        · exact ⟨"b", rfl⟩)⟩
theorem ssePartCalls_delta (tok : String) (hp : plainStr tok = true) :
    ssePartCalls (frameText (.delta tok)) = some [.tok (some tok)] := by
  have hplain : plainPairs [("type", "delta"), ("delta", tok)] := by
    intro p hp2
    simp only [List.mem_cons, List.not_mem_nil, or_false] at hp2
    rcases hp2 with rfl | rfl
    · exact ⟨by decide, by decide⟩
    · exact ⟨show plainStr "delta" = true by decide, hp⟩
  have hrt := jsonParsePairs_rt [("type", "delta"), ("delta", tok)] hplain
  simp only [frameText, framePayload]
  rw [ssePartCalls, if_pos (jsStartsWithData_data _), jsSlice5_data, hrt]
  simp [List.lookup]

theorem ssePartCalls_err (msg : String) :
    ssePartCalls (frameText (.errorFrame msg)) = some [] := by
  simp only [frameText, framePayload]
  rw [ssePartCalls, if_neg ?hneg]
  case hneg => simp [jsStartsWithData_event]

theorem deltaFramesOf_cons_ne (t : String) (ts : List String) (ht : t ≠ "") :
    deltaFramesOf (t :: ts) = .delta t :: deltaFramesOf ts := by
  simp [deltaFramesOf, List.filter_cons, ht]

theorem deltaFramesOf_cons_empty (ts : List String) :
    deltaFramesOf ("" :: ts) = deltaFramesOf ts := by
  simp [deltaFramesOf, List.filter_cons]

theorem sse_no_done_parts (ts : List String) (msg : String)
    (h : ∀ t ∈ ts, plainStr t = true) :
    SSECall.doneCall ∉
      sseAllCalls ((deltaFramesOf ts).map frameText ++ [frameText (.errorFrame msg)]) := by
  induction ts with
  | nil =>
    rw [show deltaFramesOf [] = [] from rfl]
    rw [List.map_nil, List.nil_append, sseAllCalls, ssePartCalls_err]
    simp [sseAllCalls]
  | cons t ts' ih =>
    have ih' := ih (fun x hx => h x (by simp [hx]))
    by_cases ht : t = ""
    · subst ht
      rw [deltaFramesOf_cons_empty]
      exact ih'
    · have hplain := h t (by simp)
      rw [deltaFramesOf_cons_ne t ts' ht, List.map_cons, List.cons_append,
        sseAllCalls, ssePartCalls_delta t hplain]
      intro hmem
      simp only [List.cons_append, List.nil_append, List.mem_cons] at hmem
      rcases hmem with hmem | hmem
      · exact SSECall.noConfusion hmem
      · exact ih' hmem

theorem isStreamingAfter_no_done (calls : List SSECall)
    (h : SSECall.doneCall ∉ calls) : isStreamingAfter calls = true := by
  induction calls with
  | nil => rfl
  | cons c rest ih =>
    cases c with
    | tok d =>
      rw [isStreamingAfter] at ih ⊢
      simp only [List.foldl_cons]
      exact ih (fun hm => h (by simp [hm]))
    | doneCall => exact absurd (by simp) h

/-- C1 counterexample: when the upstream call fails before producing any
token, the stream does consist of exactly one terminal error frame and the
handshake still succeeds — but that frame is NOT of the claimed form
\x7btype: "error", message: string\x7d: its payload carries no type field at all
(and the frame is emitted under an `event: error` SSE prefix, so it does
not even begin with `data:`). -/
theorem c1_counterexample :
    relayFrames (.errAfter [] "boom") = [.errorFrame "boom"] ∧
    handlerAvery { method := "POST", message := some "hi" } (.errAfter [] "boom")
      = .eventStream 200 "text/event-stream; charset=utf-8" [.errorFrame "boom"] ∧
    List.lookup "type" (framePayload (.errorFrame "boom")) = none ∧
    jsStartsWithData (frameText (.errorFrame "boom")) = false := by decide

/-- C1 (amended): for every stream opened by the streaming turn endpoint,
exactly one terminal event is emitted — `done` if generation completes
normally, otherwise a single error frame — no event follows the terminal
one, and even when the upstream call fails before producing any token the
HTTP handshake still succeeds (200, event-stream) and the stream consists
of exactly that one error frame; the error frame, however, is emitted under
an `event: error` prefix with payload \x7bmessage: string\x7d and carries no type
field. -/
theorem c1_stream_terminal_amended (u : UpstreamStream) (m : String) (hm : m ≠ "") :
    relayFrames u = deltaFramesOf (chunksOf u) ++ [terminalOf u] ∧
    (∀ f ∈ deltaFramesOf (chunksOf u), isTerminalFrame f = false) ∧
    isTerminalFrame (terminalOf u) = true ∧
    (terminalOf u = .done ↔ ∃ cs, u = .okStream cs) ∧
    handlerAvery { method := "POST", message := some m } u
      = .eventStream 200 "text/event-stream; charset=utf-8" (relayFrames u) ∧
    (∀ msg, u = .errAfter [] msg →
      relayFrames u = [.errorFrame msg] ∧
      List.lookup "message" (framePayload (.errorFrame msg)) = some msg ∧
      List.lookup "type" (framePayload (.errorFrame msg)) = none) := by
  refine ⟨?_, ?_, ?_, ?_, ?_, ?_⟩
  · cases u <;> rfl
  · intro f hf
    simp only [deltaFramesOf, List.mem_map, List.mem_filter] at hf
    obtain ⟨t, _, rfl⟩ := hf
    rfl
  · cases u <;> rfl
  · cases u with
    | okStream cs => simp [terminalOf]
    | errAfter cs msg => simp [terminalOf]
  · simp [handlerAvery, hm]
  · intro msg hu
    subst hu
    refine ⟨by simp [relayFrames, deltaFramesOf], ?_, ?_⟩
    · simp [framePayload, List.lookup]
    · simp [framePayload, List.lookup]

theorem c1_stream_terminal_amended_witness :
    ("hello" : String) ≠ "" ∧
    (relayFrames (.errAfter [] "boom")
        = deltaFramesOf (chunksOf (.errAfter [] "boom")) ++ [terminalOf (.errAfter [] "boom")] ∧
     (∀ f ∈ deltaFramesOf (chunksOf (.errAfter [] "boom")), isTerminalFrame f = false) ∧
     isTerminalFrame (terminalOf (.errAfter [] "boom")) = true ∧
     (terminalOf (.errAfter [] "boom") = .done ↔
        ∃ cs, UpstreamStream.errAfter [] "boom" = .okStream cs) ∧
     handlerAvery { method := "POST", message := some "hello" } (.errAfter [] "boom")
       = .eventStream 200 "text/event-stream; charset=utf-8" (relayFrames (.errAfter [] "boom")) ∧
     (∀ msg, UpstreamStream.errAfter [] "boom" = .errAfter [] msg →
       relayFrames (.errAfter [] "boom") = [.errorFrame msg] ∧
       List.lookup "message" (framePayload (.errorFrame msg)) = some msg ∧
       List.lookup "type" (framePayload (.errorFrame msg)) = none)) :=
  ⟨by decide, c1_stream_terminal_amended (.errAfter [] "boom") "hello" (by decide)⟩

/-- C10: in the browser streaming consumer, a received frame invokes a
handler only if it begins with `data:` and its JSON payload has type
`delta` or `done`; the relay error frames (emitted with an `event: error`
prefix and a type-less payload) produce no handler invocation, so a stream
terminated by an upstream error never triggers onDone and the client
streaming flag is never cleared by that stream. -/
theorem c10_error_frames_ignored (tokens : List String) (msg : String)
    (hplain : ∀ t ∈ tokens, plainStr t = true) :
    (∀ part calls, ssePartCalls part = some calls → calls ≠ [] →
      jsStartsWithData part = true ∧
      ∃ ps, jsonParsePairs (jsSlice5 part) = some ps ∧
        (List.lookup "type" ps = some "delta" ∨ List.lookup "type" ps = some "done")) ∧
    (∀ m, ssePartCalls (frameText (.errorFrame m)) = some []) ∧
    SSECall.doneCall ∉ sseAllCalls ((relayFrames (.errAfter tokens msg)).map frameText) ∧
    isStreamingAfter (sseAllCalls ((relayFrames (.errAfter tokens msg)).map frameText)) = true := by
  have hparts : (relayFrames (.errAfter tokens msg)).map frameText
      = (deltaFramesOf tokens).map frameText ++ [frameText (.errorFrame msg)] := by
    rw [relayFrames, List.map_append, List.map_cons, List.map_nil]
  have hnodone := sse_no_done_parts tokens msg hplain
  refine ⟨?_, ssePartCalls_err, ?_, ?_⟩
  · intro part calls hcalls hne
    rw [ssePartCalls] at hcalls
    by_cases hsw : jsStartsWithData part
    · rw [if_pos hsw] at hcalls
      cases hparse : jsonParsePairs (jsSlice5 part) with
      | none =>
        rw [hparse] at hcalls
        exact absurd hcalls (by simp)
      | some ps =>
        rw [hparse] at hcalls
        have hcalls2 :
            some ((if List.lookup "type" ps = some "delta"
                then [SSECall.tok (List.lookup "delta" ps)] else []) ++
              (if List.lookup "type" ps = some "done" then [SSECall.doneCall] else []))
              = some calls := hcalls
        refine ⟨hsw, ps, rfl, ?_⟩
        by_cases h1 : List.lookup "type" ps = some "delta"
        · exact Or.inl h1
        · by_cases h2 : List.lookup "type" ps = some "done"
          · exact Or.inr h2
          · exfalso
            apply hne
            rw [if_neg h1, if_neg h2] at hcalls2
            injection hcalls2 with h
            exact h.symm
    · rw [if_neg hsw] at hcalls
      injection hcalls with h
      exact absurd h.symm hne
  · rw [hparts]
    exact hnodone
  · rw [hparts]
    exact isStreamingAfter_no_done _ hnodone

theorem c10_error_frames_ignored_witness :
    (∀ t ∈ ["hey"], plainStr t = true) ∧
    ((∀ part calls, ssePartCalls part = some calls → calls ≠ [] →
        jsStartsWithData part = true ∧
        ∃ ps, jsonParsePairs (jsSlice5 part) = some ps ∧
          (List.lookup "type" ps = some "delta" ∨ List.lookup "type" ps = some "done")) ∧
     (∀ m, ssePartCalls (frameText (.errorFrame m)) = some []) ∧
     SSECall.doneCall ∉ sseAllCalls ((relayFrames (.errAfter ["hey"] "boom")).map frameText) ∧
     isStreamingAfter (sseAllCalls ((relayFrames (.errAfter ["hey"] "boom")).map frameText)) = true) :=
  ⟨by decide, c10_error_frames_ignored ["hey"] "boom" (by decide)⟩
